import Mathlib

/-!
Verification of the spatial epidemiological analysis engine of the
mirsha-vet-epigeoai repository: the weighted risk scorer
(`src/core/risk_model.py`), the LISA cluster analysis wrapper
(`src/core/analysis.py`), the dashboard rate calculator
(`src/core/database.py`, `get_dashboard_data`) and the economic impact
estimator (`src/core/economics.py`), shallowly embedded over rational
numbers, with pandas dataframes modelled as association lists of named
columns (column-oriented) or lists of row records (row-oriented),
whichever is closer to how the Python code manipulates them.

Python functions that mutate their dataframe argument in place are
embedded as functions that also return the post-call state of the
caller's table, so frame properties about mutation are statable.
-/

set_option autoImplicit false

namespace MirshaVet

/-- First-match lookup in an association list keyed by strings, as pandas
column access / dict lookup. -/
def lookupKey {α : Type} (name : String) : List (String × α) → Option α
  | [] => none
  | c :: t => if c.1 = name then some c.2 else lookupKey name t

/-! ## Economic impact estimator (`src/core/economics.py`) -/

/-- `ANIMAL_MARKET_VALUES` from `economics.py`: species → unit market value (ETB). -/
def ANIMAL_MARKET_VALUES : List (String × ℚ) :=
  [("Cattle", 30000), ("Sheep", 4000), ("Goats", 3500),
   ("Camels", 60000), ("Poultry", 250), ("Default", 10000)]

/-- `DAILY_MORBIDITY_LOSS` from `economics.py`: species → daily production loss (ETB/day). -/
def DAILY_MORBIDITY_LOSS : List (String × ℚ) :=
  [("Cattle", 150), ("Sheep", 20), ("Goats", 18),
   ("Camels", 200), ("Poultry", 5), ("Default", 50)]

/-- `AVG_DISEASE_DURATION_DAYS` from `economics.py`. -/
def AVG_DISEASE_DURATION_DAYS : ℚ := 21

/-- `series.map(table).fillna(table["Default"])`: look the species up in the
table, falling back to the table's `"Default"` entry. -/
def mapFillDefault (table : List (String × ℚ)) (s : String) : ℚ :=
  (lookupKey s table).getD ((lookupKey "Default" table).getD 0)

/-- A row of the `outbreak_cases` dataframe passed to
`calculate_direct_outbreak_cost`.  The two `Option` fields model the
`animal_value` / `daily_loss_value` columns that the Python function
assigns into its argument dataframe (absent = `none` before the call). -/
structure CaseRow where
  species : String
  cases : ℚ
  deaths : ℚ
  animal_value : Option ℚ
  daily_loss_value : Option ℚ
deriving DecidableEq

/-- Result dictionary of `calculate_direct_outbreak_cost`. -/
structure CostResult where
  total_cost : ℚ
  mortality_cost : ℚ
  morbidity_cost : ℚ
deriving DecidableEq

/-- `calculate_direct_outbreak_cost(outbreak_cases_df)` from `economics.py`.
Returns the cost dictionary together with the state of the caller's
dataframe after the call: the Python code assigns the `animal_value` and
`daily_loss_value` columns directly into its argument (no copy), so on a
non-empty input the caller's table gains those two columns. -/
def calculate_direct_outbreak_cost (df0 : List CaseRow) : CostResult × List CaseRow :=
  if df0 = [] then (⟨0, 0, 0⟩, df0)
  else
    let df1 := df0.map fun r =>
      { r with animal_value := some (mapFillDefault ANIMAL_MARKET_VALUES r.species) }
    let mortality_cost := (df1.map fun r => r.deaths * r.animal_value.getD 0).sum
    let df2 := df1.map fun r =>
      { r with daily_loss_value := some (mapFillDefault DAILY_MORBIDITY_LOSS r.species) }
    let morbidity_cost :=
      (df2.map fun r => r.cases * r.daily_loss_value.getD 0 * AVG_DISEASE_DURATION_DAYS).sum
    (⟨mortality_cost + morbidity_cost, mortality_cost, morbidity_cost⟩, df2)

/-- Result dictionary of `run_cost_benefit_scenario`. -/
structure ScenarioResult where
  cost_no_action : ℚ
  cost_with_intervention : ℚ
  benefits_averted_cost : ℚ
  net_benefit : ℚ
  roi_percent : ℚ
deriving DecidableEq

/-- The dummy "No Action" per-species dataframe built by
`run_cost_benefit_scenario`: one row per species of the distribution. -/
def noActionFrame (projected_cases projected_deaths : ℚ)
    (dist : List (String × ℚ)) : List CaseRow :=
  dist.map fun sp =>
    ⟨sp.1, projected_cases * sp.2, projected_deaths * sp.2, none, none⟩

/-- The dummy per-species dataframe of the cases that still occur with the
intervention: each projection scaled by `1 - effectiveness_factor`. -/
def withInterventionFrame (projected_cases projected_deaths : ℚ)
    (dist : List (String × ℚ)) (effectiveness_factor : ℚ) : List CaseRow :=
  dist.map fun sp =>
    ⟨sp.1, projected_cases * sp.2 * (1 - effectiveness_factor),
     projected_deaths * sp.2 * (1 - effectiveness_factor), none, none⟩

/-- `run_cost_benefit_scenario(...)` from `economics.py`. -/
def run_cost_benefit_scenario (projected_cases projected_deaths : ℚ)
    (projected_species_distribution : List (String × ℚ))
    (intervention_cost : ℚ) (intervention_effectiveness_percent : ℚ) : ScenarioResult :=
  let no_action_df := noActionFrame projected_cases projected_deaths
    projected_species_distribution
  let cost_no_action := (calculate_direct_outbreak_cost no_action_df).1.total_cost
  let effectiveness_factor := intervention_effectiveness_percent / 100
  let with_intervention_df := withInterventionFrame projected_cases projected_deaths
    projected_species_distribution effectiveness_factor
  let cost_with_intervention_disease :=
    (calculate_direct_outbreak_cost with_intervention_df).1.total_cost
  let total_cost_with_intervention := intervention_cost + cost_with_intervention_disease
  let benefits_averted_cost := cost_no_action - cost_with_intervention_disease
  let net_benefit := benefits_averted_cost - intervention_cost
  let roi := if 0 < intervention_cost then net_benefit / intervention_cost * 100 else 0
  ⟨cost_no_action, total_cost_with_intervention, benefits_averted_cost, net_benefit, roi⟩

/-! ## LISA cluster analysis (`src/core/analysis.py`) -/

/-- A GeoDataFrame as seen by `calculate_lisa`: a row count (the geometry
column is always present, so the pandas `.empty` test is `nrows = 0`),
named numeric attribute columns, and the three LISA result columns, which
may be absent (`none`) before the call.  Cluster labels are
`Option String` because the pandas `map` of the quadrant through the label
dictionary yields a missing value (`none`) for quadrants outside 1..4. -/
structure GeoFrame where
  nrows : ℕ
  cols : List (String × List ℚ)
  lisa_q : Option (List ℕ)
  lisa_p : Option (List ℚ)
  cluster_type : Option (List (Option String))
deriving DecidableEq

/-- The `cluster_labels` dictionary of `analysis.py`, as the pandas `map`
applies it: quadrants other than 1..4 get a missing label. -/
def cluster_labels (q : ℕ) : Option String :=
  if q = 1 then some "High-High (Hotspot)"
  else if q = 2 then some "Low-High (Doughnut)"
  else if q = 3 then some "Low-Low (Coldspot)"
  else if q = 4 then some "High-Low (Diamond)"
  else none

/-- The guard of `calculate_lisa`:
`gdf.empty or attribute_column not in gdf.columns or gdf[attribute_column].nunique() < 2`
(`nunique` counts distinct values, modelled by `List.dedup`). -/
def lisaDegenerate (gdf : GeoFrame) (attribute_column : String) : Prop :=
  gdf.nrows = 0 ∨ lookupKey attribute_column gdf.cols = none ∨
    ((lookupKey attribute_column gdf.cols).getD []).dedup.length < 2

instance (gdf : GeoFrame) (attribute_column : String) :
    Decidable (lisaDegenerate gdf attribute_column) := by
  unfold lisaDegenerate; exact inferInstance

/-- `calculate_lisa(gdf, attribute_column)` from `analysis.py`.

The external pysal/esda computation inside the `try` block
(`weights.Queen.from_dataframe` followed by `Moran_Local` with 999 random
permutations) is library code outside this repository and is stochastic;
it is abstracted as the oracle argument `moran`: `Except.ok (q, p)` for a
successful run returning the quadrant vector `lisa.q` and pseudo-p vector
`lisa.p_sim`, `Except.error e` for any exception raised inside the block.

The Python code assigns result columns directly into its argument `gdf`
(no copy) and returns that same object, so the returned frame is also the
state of the caller's dataframe after the call.  The second component of
the result collects the `st.warning` diagnostics emitted. -/
def calculate_lisa (gdf : GeoFrame) (attribute_column : String)
    (moran : Except String (List ℕ × List ℚ)) : GeoFrame × List String :=
  if lisaDegenerate gdf attribute_column then
    ({ gdf with
        lisa_q := some (List.replicate gdf.nrows 0),
        lisa_p := some (List.replicate gdf.nrows 1),
        cluster_type := some (List.replicate gdf.nrows (some "Not Significant")) }, [])
  else
    match moran with
    | Except.error e =>
        ({ gdf with
            cluster_type := some (List.replicate gdf.nrows (some "Analysis Error")) },
         ["Could not perform LISA analysis. Error: " ++ e])
    | Except.ok qp =>
        -- `cluster_type = lisa_q.map(cluster_labels)` followed by
        -- `gdf.loc[gdf['lisa_p'] > 0.05, 'cluster_type'] = 'Not Significant'`
        let labels := List.zipWith
          (fun q p => if (5 / 100 : ℚ) < p then some "Not Significant" else cluster_labels q)
          qp.1 qp.2
        ({ gdf with lisa_q := some qp.1, lisa_p := some qp.2,
                    cluster_type := some labels }, [])

/-! ## Dashboard rate calculator (`src/core/database.py`, `get_dashboard_data`) -/

/-- A row of the woreda geometry table (`admin_woredas`). -/
structure Woreda where
  woreda_code : String
deriving DecidableEq

/-- A row of the aggregated case query: per-woreda-and-disease totals. -/
structure CaseAgg where
  woreda_code : String
  disease_name : String
  total_cases : ℚ
  total_deaths : ℚ
  total_susceptible : ℚ
deriving DecidableEq

/-- A row of the dashboard GeoDataFrame after rate derivation and
`fillna(0)`.  `disease_name` is `none` for woredas that matched no case
aggregate (the merge leaves it missing, and it is not in the `fillna`
column list). -/
structure DashRow where
  woreda_code : String
  disease_name : Option String
  total_cases : ℚ
  total_deaths : ℚ
  attack_rate_percent : ℚ
  cfr_percent : ℚ
deriving DecidableEq

/-- `woredas_gdf.merge(cases_df, on='woreda_code', how='left')`: every
woreda row is kept; a woreda matching no aggregate yields one row with
missing case fields, a woreda matching several yields one row per match. -/
def leftMerge (woredas : List Woreda) (cases_df : List CaseAgg) :
    List (Woreda × Option CaseAgg) :=
  woredas.flatMap fun w =>
    match cases_df.filter (fun c => c.woreda_code = w.woreda_code) with
    | [] => [(w, none)]
    | ms => ms.map fun c => (w, some c)

/-- Rate derivation and `fillna(0)` for one merged row, from
`get_dashboard_data`: the `.where(denominator > 0, 0)` guard yields 0 for
a zero denominator, and for an unmatched woreda all case fields are
missing, the `> 0` comparison with a missing value is false (so both
rates are already 0), and `fillna(0)` turns the missing counts into 0. -/
def rateRow (w : Woreda) (m : Option CaseAgg) : DashRow :=
  match m with
  | none => ⟨w.woreda_code, none, 0, 0, 0, 0⟩
  | some c =>
      ⟨w.woreda_code, some c.disease_name, c.total_cases, c.total_deaths,
        if 0 < c.total_susceptible then c.total_cases / c.total_susceptible * 100 else 0,
        if 0 < c.total_cases then c.total_deaths / c.total_cases * 100 else 0⟩

/-- The rate-derivation core of `get_dashboard_data` (`database.py`):
left-merge the case aggregates into the woreda table, derive
`attack_rate_percent` and `cfr_percent` with the zero-denominator guard,
and fill missing counts with 0. -/
def get_dashboard_data (woredas : List Woreda) (cases_df : List CaseAgg) :
    List DashRow :=
  (leftMerge woredas cases_df).map fun p => rateRow p.1 p.2

/-! ## Weighted risk scorer (`src/core/risk_model.py`) -/

/-- The risk-factor GeoDataFrame, column-oriented: named numeric columns
(each a list of per-region values of equal length). -/
structure DFrame where
  cols : List (String × List ℚ)
deriving DecidableEq

/-- `df.columns`. -/
def DFrame.colNames (df : DFrame) : List String := df.cols.map Prod.fst

/-- Number of rows: the length of the first column (0 for a frame with no
columns). -/
def DFrame.nrows (df : DFrame) : ℕ :=
  match df.cols with
  | [] => 0
  | c :: _ => c.2.length

/-- pandas `.empty`: true when either axis has length 0. -/
def DFrame.isEmpty (df : DFrame) : Prop :=
  df.cols = [] ∨ df.nrows = 0

instance (df : DFrame) : Decidable df.isEmpty := by
  unfold DFrame.isEmpty; exact inferInstance

/-- `df[name]` (empty list when the column is absent). -/
def DFrame.getColD (df : DFrame) (name : String) : List ℚ :=
  (lookupKey name df.cols).getD []

/-- `df[name] = v`: replace the column in place when present, append it
otherwise (pandas column assignment). -/
def DFrame.setCol (df : DFrame) (name : String) (v : List ℚ) : DFrame :=
  if name ∈ df.colNames then
    ⟨df.cols.map fun c => if c.1 = name then (name, v) else c⟩
  else ⟨df.cols ++ [(name, v)]⟩

/-- One iteration of the weight-application loop of
`calculate_weighted_risk`: when the factor is a column of the data,
`gdf['final_risk_score'] += gdf[factor] * weight`; otherwise the factor is
skipped (the source emits an `st.warning` diagnostic). -/
def wlcStep (g : DFrame) (fw : String × ℚ) : DFrame :=
  if fw.1 ∈ g.colNames then
    g.setCol "final_risk_score"
      (List.zipWith (fun s x => s + x * fw.2)
        (g.getColD "final_risk_score") (g.getColD fw.1))
  else g

/-- `calculate_weighted_risk(risk_gdf, weights_dict)` from `risk_model.py`.
The weight dictionary is an association list in iteration order.  Returns
the function's return value together with the state of the caller's
dataframe after the call: the source copies its input (`risk_gdf.copy()`)
before mutating, so the caller's table is returned unchanged; on an empty
input the source returns the input itself untouched. -/
def calculate_weighted_risk (risk_gdf : DFrame) (weights_dict : List (String × ℚ)) :
    DFrame × DFrame :=
  if risk_gdf.isEmpty then (risk_gdf, risk_gdf)
  else
    let gdf0 := risk_gdf.setCol "final_risk_score" (List.replicate risk_gdf.nrows 0)
    let gdf1 := weights_dict.foldl wlcStep gdf0
    let total_weight := (weights_dict.map Prod.snd).sum
    let gdf2 :=
      if 0 < total_weight then
        gdf1.setCol "final_risk_score" ((gdf1.getColD "final_risk_score").map (· / total_weight))
      else gdf1
    (gdf2, risk_gdf)

/-- The composite score of region `i` in a scored frame. -/
def scoreAt (g : DFrame) (i : ℕ) : ℚ :=
  (g.getColD "final_risk_score").getD i 0

/-- The running total of the claim for region `i`: the sum, over factors
present in both the weight mapping and the layer columns, of
`layer_value * weight`. -/
def appliedRowTotal (df : DFrame) (weights_dict : List (String × ℚ)) (i : ℕ) : ℚ :=
  (weights_dict.map fun fw =>
    if fw.1 ∈ df.colNames then (df.getColD fw.1).getD i 0 * fw.2 else 0).sum

/-- The sum of the weights of the factors actually found in the data. -/
def appliedWeightSum (df : DFrame) (weights_dict : List (String × ℚ)) : ℚ :=
  ((weights_dict.filter fun fw => fw.1 ∈ df.colNames).map Prod.snd).sum

/-- The composite score as the claim words it (spec §4.4): running total
divided by the sum of the weights actually applied, and 0 when that sum
is 0.  Stated for comparison with the behaviour of
`calculate_weighted_risk`. -/
def specCompositeScore (df : DFrame) (weights_dict : List (String × ℚ)) (i : ℕ) : ℚ :=
  if appliedWeightSum df weights_dict = 0 then 0
  else appliedRowTotal df weights_dict i / appliedWeightSum df weights_dict

/-- Reference recursion for the score column produced by the
weight-application loop over a fixed set of layer columns `base`:
the loop body adds `column * weight` pointwise for each factor found in
`base` and skips the others. -/
def scoreFold (base : List (String × List ℚ)) : List ℚ → List (String × ℚ) → List ℚ
  | s, [] => s
  | s, fw :: t =>
      scoreFold base
        (if fw.1 ∈ base.map Prod.fst then
          List.zipWith (fun a x => a + x * fw.2) s ((lookupKey fw.1 base).getD [])
        else s) t

/-! ## Basic lemmas -/

@[simp] theorem lookupKey_nil {α : Type} (name : String) :
    lookupKey (α := α) name [] = none := rfl

@[simp] theorem lookupKey_cons {α : Type} (name : String) (c : String × α)
    (t : List (String × α)) :
    lookupKey name (c :: t) = if c.1 = name then some c.2 else lookupKey name t := rfl

theorem lookupKey_append {α : Type} (name : String) (l₁ l₂ : List (String × α)) :
    lookupKey name (l₁ ++ l₂) = (lookupKey name l₁).elim (lookupKey name l₂) some := by
  induction l₁ with
  | nil => simp
  | cons c t ih => by_cases h : c.1 = name <;> simp [h, ih]

theorem lookupKey_eq_none_of_not_mem {α : Type} {name : String} {l : List (String × α)}
    (h : name ∉ l.map Prod.fst) : lookupKey name l = none := by
  induction l with
  | nil => rfl
  | cons c t ih =>
    simp only [List.map_cons, List.mem_cons, not_or] at h
    rw [lookupKey_cons, if_neg (fun hc => h.1 hc.symm)]
    exact ih h.2

theorem lookupKey_exists_of_mem {α : Type} {name : String} {l : List (String × α)}
    (h : name ∈ l.map Prod.fst) : ∃ v, lookupKey name l = some v := by
  induction l with
  | nil => cases h
  | cons c t ih =>
    rw [lookupKey_cons]
    by_cases hc : c.1 = name
    · exact ⟨c.2, by rw [if_pos hc]⟩
    · rw [if_neg hc]
      apply ih
      simp only [List.map_cons, List.mem_cons] at h
      exact h.resolve_left fun he => hc he.symm

theorem lookupKey_mem {α : Type} {name : String} {l : List (String × α)} {v : α}
    (h : lookupKey name l = some v) : (name, v) ∈ l := by
  induction l with
  | nil => cases h
  | cons c t ih =>
    rw [lookupKey_cons] at h
    by_cases hc : c.1 = name
    · rw [if_pos hc] at h
      injection h with h
      have hcv : c = (name, v) := by
        rw [← hc, ← h]
      rw [← hcv]
      exact List.mem_cons_self c t
    · rw [if_neg hc] at h
      exact List.mem_cons_of_mem _ (ih h)

/-! ## Theorems: economic impact estimator -/

/-- C5: direct cost computation.  For every non-empty case table,
`mortality_cost` is the sum over rows of deaths times the species' unit
market value (falling back to the `Default` entry for species not in the
lookup, which maps any unlisted species to 10000), `morbidity_cost` is
the sum over rows of cases times the species' daily production loss times
the fixed 21-day duration, `total_cost` is their sum; the empty table
yields all-zero costs; and the Cattle example with 10 cases and 2 deaths
yields mortality 60000, morbidity 31500, total 91500. -/
theorem C5_direct_outbreak_cost :
    (∀ df : List CaseRow, df ≠ [] →
      (calculate_direct_outbreak_cost df).1.mortality_cost =
        (df.map fun r => r.deaths * mapFillDefault ANIMAL_MARKET_VALUES r.species).sum ∧
      (calculate_direct_outbreak_cost df).1.morbidity_cost =
        (df.map fun r =>
          r.cases * mapFillDefault DAILY_MORBIDITY_LOSS r.species * AVG_DISEASE_DURATION_DAYS).sum ∧
      (calculate_direct_outbreak_cost df).1.total_cost =
        (calculate_direct_outbreak_cost df).1.mortality_cost +
          (calculate_direct_outbreak_cost df).1.morbidity_cost) ∧
    (∀ s : String, lookupKey s ANIMAL_MARKET_VALUES = none →
      mapFillDefault ANIMAL_MARKET_VALUES s = 10000) ∧
    calculate_direct_outbreak_cost [] = (⟨0, 0, 0⟩, []) ∧
    (calculate_direct_outbreak_cost [⟨"Cattle", 10, 2, none, none⟩]).1 =
      ⟨91500, 60000, 31500⟩ := by
  refine ⟨fun df hne => ?_, fun s hs => ?_, rfl, ?_⟩
  · simp [calculate_direct_outbreak_cost, if_neg hne, List.map_map, Function.comp]
    constructor <;> rfl
  · simp only [mapFillDefault]
    rw [hs]
    decide
  · norm_num [calculate_direct_outbreak_cost, mapFillDefault, ANIMAL_MARKET_VALUES,
      DAILY_MORBIDITY_LOSS, AVG_DISEASE_DURATION_DAYS]

/-- C5 witness: the general conjunct applied to the singleton Sheep table
(species present in the lookup) and to a species absent from the lookup. -/
theorem C5_direct_outbreak_cost_witness :
    (calculate_direct_outbreak_cost [⟨"Sheep", 3, 1, none, none⟩]).1.mortality_cost =
      ([⟨"Sheep", 3, 1, none, none⟩].map
        (fun r : CaseRow => r.deaths * mapFillDefault ANIMAL_MARKET_VALUES r.species)).sum ∧
    mapFillDefault ANIMAL_MARKET_VALUES "Zebu" = 10000 :=
  ⟨(C5_direct_outbreak_cost.1 [⟨"Sheep", 3, 1, none, none⟩] (by simp)).1,
   C5_direct_outbreak_cost.2.1 "Zebu" (by decide)⟩

/-- C6: cost-benefit scenario arithmetic.  For every projection, the
result fields satisfy the §4.5 equations: the residual frame scales each
species' projected cases and deaths by `1 - effectiveness_percent / 100`,
`cost_with_intervention` adds the intervention cost to the residual
direct cost, `benefits_averted` subtracts the residual direct cost from
the no-action cost, `net_benefit` subtracts the intervention cost, and
`roi_percent` is `net_benefit / intervention_cost * 100` guarded to 0 for
a non-positive intervention cost; the §8 worked example evaluates to
cost_no_action 6150000, cost_with_intervention 1615000, net_benefit
4535000 and roi 453.5. -/
theorem C6_cost_benefit_scenario :
    (∀ (pc pd : ℚ) (dist : List (String × ℚ)) (ic ep : ℚ),
      withInterventionFrame pc pd dist (ep / 100) =
        dist.map (fun sp =>
          ⟨sp.1, pc * sp.2 * (1 - ep / 100), pd * sp.2 * (1 - ep / 100), none, none⟩) ∧
      (run_cost_benefit_scenario pc pd dist ic ep).cost_no_action =
        (calculate_direct_outbreak_cost (noActionFrame pc pd dist)).1.total_cost ∧
      (run_cost_benefit_scenario pc pd dist ic ep).cost_with_intervention =
        ic + (calculate_direct_outbreak_cost
          (withInterventionFrame pc pd dist (ep / 100))).1.total_cost ∧
      (run_cost_benefit_scenario pc pd dist ic ep).benefits_averted_cost =
        (run_cost_benefit_scenario pc pd dist ic ep).cost_no_action -
          (calculate_direct_outbreak_cost
            (withInterventionFrame pc pd dist (ep / 100))).1.total_cost ∧
      (run_cost_benefit_scenario pc pd dist ic ep).net_benefit =
        (run_cost_benefit_scenario pc pd dist ic ep).benefits_averted_cost - ic ∧
      (run_cost_benefit_scenario pc pd dist ic ep).roi_percent =
        (if 0 < ic then (run_cost_benefit_scenario pc pd dist ic ep).net_benefit / ic * 100
         else 0)) ∧
    run_cost_benefit_scenario 1000 100 [("Cattle", 1)] 1000000 90 =
      ⟨6150000, 1615000, 5535000, 4535000, 907 / 2⟩ := by
  refine ⟨fun pc pd dist ic ep => ⟨rfl, rfl, rfl, rfl, rfl, rfl⟩, ?_⟩
  norm_num [run_cost_benefit_scenario, noActionFrame, withInterventionFrame,
    calculate_direct_outbreak_cost, mapFillDefault, ANIMAL_MARKET_VALUES,
    DAILY_MORBIDITY_LOSS, AVG_DISEASE_DURATION_DAYS]

/-- C8 counterexample: neither `calculate_lisa` nor the direct-cost
estimator leaves the caller's input table as it was: the direct-cost
estimator appends the `animal_value` / `daily_loss_value` columns to its
argument in place, and `calculate_lisa` appends the LISA result columns
to its argument in place (here on a degenerate single-region frame). -/
theorem C8_counterexample_mutation :
    (calculate_direct_outbreak_cost [⟨"Cattle", 10, 2, none, none⟩]).2 ≠
      [⟨"Cattle", 10, 2, none, none⟩] ∧
    (calculate_lisa ⟨1, [("x", [1])], none, none, none⟩ "x" (Except.ok ([], []))).1 ≠
      ⟨1, [("x", [1])], none, none, none⟩ := by
  constructor
  · intro h
    have := congrArg (fun l => (l.headD ⟨"", 0, 0, none, none⟩).animal_value) h
    simp [calculate_direct_outbreak_cost] at this
  · intro h
    have := congrArg GeoFrame.lisa_q h
    simp [calculate_lisa, lisaDegenerate, lookupKey] at this

/-- C8 amended: the core computations are pure in that their results are
functions of their inputs and mutation of the caller's table is limited
to appending derived columns: the direct-cost estimator leaves every
row's `species`/`cases`/`deaths` data unchanged (it only fills the two
lookup columns), `calculate_lisa` leaves the row count and all attribute
columns unchanged (it only writes the LISA result columns), and the risk
scorer leaves the caller's table entirely unchanged. -/
theorem C8_purity_amended :
    (∀ df : List CaseRow,
      (calculate_direct_outbreak_cost df).2.map (fun r => (r.species, r.cases, r.deaths)) =
        df.map fun r => (r.species, r.cases, r.deaths)) ∧
    (∀ (gdf : GeoFrame) (attr : String) (moran : Except String (List ℕ × List ℚ)),
      (calculate_lisa gdf attr moran).1.nrows = gdf.nrows ∧
      (calculate_lisa gdf attr moran).1.cols = gdf.cols) ∧
    (∀ (df : DFrame) (ws : List (String × ℚ)),
      (calculate_weighted_risk df ws).2 = df) := by
  refine ⟨fun df => ?_, fun gdf attr moran => ?_, fun df ws => ?_⟩
  · by_cases h : df = [] <;> simp [calculate_direct_outbreak_cost, h, List.map_map]
  · by_cases h : lisaDegenerate gdf attr
    · simp [calculate_lisa, h]
    · cases moran <;> simp [calculate_lisa, h]
  · unfold calculate_weighted_risk
    split <;> rfl

/-! ## Theorems: LISA engine -/

/-- The degenerate branch of `calculate_lisa`, shared shape lemma. -/
theorem calculate_lisa_of_degenerate (gdf : GeoFrame) (attr : String)
    (h : lisaDegenerate gdf attr) (moran : Except String (List ℕ × List ℚ)) :
    calculate_lisa gdf attr moran =
      ({ gdf with
          lisa_q := some (List.replicate gdf.nrows 0),
          lisa_p := some (List.replicate gdf.nrows 1),
          cluster_type := some (List.replicate gdf.nrows (some "Not Significant")) }, []) := by
  unfold calculate_lisa
  rw [if_pos h]

/-- The exception branch of `calculate_lisa`, shared shape lemma. -/
theorem calculate_lisa_of_error (gdf : GeoFrame) (attr : String)
    (h : ¬ lisaDegenerate gdf attr) (e : String) :
    calculate_lisa gdf attr (Except.error e) =
      ({ gdf with
          cluster_type := some (List.replicate gdf.nrows (some "Analysis Error")) },
       ["Could not perform LISA analysis. Error: " ++ e]) := by
  unfold calculate_lisa
  rw [if_neg h]

/-- C2: LISA degenerate input.  When the region set is empty, the
requested attribute column is absent, or the attribute has fewer than 2
distinct values, `calculate_lisa` returns quadrant 0, p-value 1 and
label "Not Significant" for every region, independently of the external
Moran oracle (the permutation test is skipped entirely), with no
diagnostic emitted. -/
theorem C2_lisa_degenerate (gdf : GeoFrame) (attr : String)
    (h : gdf.nrows = 0 ∨ lookupKey attr gdf.cols = none ∨
      ((lookupKey attr gdf.cols).getD []).dedup.length < 2) :
    ∀ moran : Except String (List ℕ × List ℚ),
      calculate_lisa gdf attr moran =
        ({ gdf with
            lisa_q := some (List.replicate gdf.nrows 0),
            lisa_p := some (List.replicate gdf.nrows 1),
            cluster_type := some (List.replicate gdf.nrows (some "Not Significant")) }, []) :=
  fun moran => calculate_lisa_of_degenerate gdf attr h moran

/-- C2 witness: a single-region frame whose attribute is constant. -/
theorem C2_lisa_degenerate_witness :
    calculate_lisa ⟨1, [("total_cases", [7])], none, none, none⟩ "total_cases"
        (Except.ok ([2], [1/100])) =
      (⟨1, [("total_cases", [7])], some [0], some [1], some [some "Not Significant"]⟩, []) :=
  C2_lisa_degenerate ⟨1, [("total_cases", [7])], none, none, none⟩ "total_cases"
    (by decide) (Except.ok ([2], [1/100]))

/-- C4: LISA failure containment.  On any region set that passes the
degeneracy guard, a failure of the external neighbor-weight/permutation
computation is caught: `calculate_lisa` returns normally, emits exactly
one warning diagnostic, labels every region "Analysis Error", and leaves
`lisa_q` and `lisa_p` at their prior values (the record update keeps
`gdf.lisa_q` and `gdf.lisa_p` untouched). -/
theorem C4_lisa_error_containment (gdf : GeoFrame) (attr : String)
    (h : ¬ lisaDegenerate gdf attr) (e : String) :
    calculate_lisa gdf attr (Except.error e) =
      ({ gdf with
          cluster_type := some (List.replicate gdf.nrows (some "Analysis Error")) },
       ["Could not perform LISA analysis. Error: " ++ e]) :=
  calculate_lisa_of_error gdf attr h e

/-- C4 witness: a two-region frame with two distinct attribute values and
a failing oracle. -/
theorem C4_lisa_error_containment_witness :
    calculate_lisa ⟨2, [("total_cases", [1, 2])], none, none, none⟩ "total_cases"
        (Except.error "singular matrix") =
      (⟨2, [("total_cases", [1, 2])], none, none,
        some [some "Analysis Error", some "Analysis Error"]⟩,
       ["Could not perform LISA analysis. Error: singular matrix"]) :=
  C4_lisa_error_containment ⟨2, [("total_cases", [1, 2])], none, none, none⟩
    "total_cases" (by decide) "singular matrix"

/-! ## Theorems: dashboard rate calculator -/

/-- Decomposition of a dashboard output row: it is the rate derivation of
some input woreda, either unmatched or matched with an input aggregate. -/
theorem mem_get_dashboard_data (woredas : List Woreda) (cases_df : List CaseAgg)
    (row : DashRow) (hrow : row ∈ get_dashboard_data woredas cases_df) :
    ∃ w ∈ woredas, row = rateRow w none ∨ ∃ c ∈ cases_df, row = rateRow w (some c) := by
  simp only [get_dashboard_data, List.mem_map] at hrow
  obtain ⟨p, hp, hrw⟩ := hrow
  simp only [leftMerge, List.mem_flatMap] at hp
  obtain ⟨w, hw, hpw⟩ := hp
  refine ⟨w, hw, ?_⟩
  rcases hf : cases_df.filter (fun c => c.woreda_code = w.woreda_code) with _ | ⟨c, ms⟩
  · rw [hf] at hpw
    simp at hpw
    left
    rw [← hrw, hpw]
  · rw [hf] at hpw
    simp only [List.mem_map] at hpw
    obtain ⟨c2, hc2, hpc⟩ := hpw
    right
    have hc2' : c2 ∈ cases_df := List.mem_of_mem_filter (hf ▸ hc2)
    exact ⟨c2, hc2', by rw [← hrw, ← hpc]⟩

/-- C3 counterexample: the claim's unconditional bound fails on the code.
With 10 cases among only 5 susceptible animals (the cases ≤ susceptible
invariant is not enforced anywhere), the attack rate comes out as 200,
outside [0, 100] and not a zero-denominator 0. -/
theorem C3_counterexample_rate_bounds :
    get_dashboard_data [⟨"W1"⟩] [⟨"W1", "D", 10, 0, 5⟩] =
      [⟨"W1", some "D", 10, 0, 200, 0⟩] ∧
    ¬ ((200 : ℚ) ≤ 100) := by
  constructor
  · norm_num [get_dashboard_data, leftMerge, rateRow, List.filter]
  · norm_num

/-- A guarded percentage `x / y * 100` with `0 ≤ x ≤ y` lies in [0, 100]. -/
theorem rateQuot_bounds (x y : ℚ) (hx0 : 0 ≤ x) (hxy : x ≤ y) :
    0 ≤ (if 0 < y then x / y * 100 else 0) ∧
    (if 0 < y then x / y * 100 else 0) ≤ 100 := by
  by_cases h : 0 < y
  · rw [if_pos h]
    constructor
    · positivity
    · rw [div_mul_eq_mul_div, div_le_iff₀ h]
      nlinarith
  · rw [if_neg h]
    norm_num

/-- C3 amended: rate formulas and zero-denominator policy as claimed,
and the [0, 100] bounds hold for every aggregate satisfying the data
model's (unenforced) invariant 0 ≤ deaths ≤ cases ≤ susceptible.  The
computation is total: zero denominators yield 0 by the `.where` guard
rather than an exception. -/
theorem C3_rate_bounds_amended (woredas : List Woreda) (cases_df : List CaseAgg)
    (hinv : ∀ c ∈ cases_df, 0 ≤ c.total_deaths ∧ c.total_deaths ≤ c.total_cases ∧
      c.total_cases ≤ c.total_susceptible) :
    (∀ row ∈ get_dashboard_data woredas cases_df,
      0 ≤ row.attack_rate_percent ∧ row.attack_rate_percent ≤ 100 ∧
      0 ≤ row.cfr_percent ∧ row.cfr_percent ≤ 100) ∧
    (∀ (w : Woreda) (c : CaseAgg),
      (rateRow w (some c)).attack_rate_percent =
        (if 0 < c.total_susceptible then c.total_cases / c.total_susceptible * 100 else 0) ∧
      (rateRow w (some c)).cfr_percent =
        (if 0 < c.total_cases then c.total_deaths / c.total_cases * 100 else 0)) := by
  refine ⟨fun row hrow => ?_, fun w c => ⟨rfl, rfl⟩⟩
  obtain ⟨w, _, hcase⟩ := mem_get_dashboard_data woredas cases_df row hrow
  rcases hcase with h0 | ⟨c, hc, hcr⟩
  · rw [h0]
    norm_num [rateRow]
  · obtain ⟨hd0, hdc, hcs⟩ := hinv c hc
    have hc0 : 0 ≤ c.total_cases := le_trans hd0 hdc
    rw [hcr]
    exact ⟨(rateQuot_bounds _ _ hc0 hcs).1, (rateQuot_bounds _ _ hc0 hcs).2,
      (rateQuot_bounds _ _ hd0 hdc).1, (rateQuot_bounds _ _ hd0 hdc).2⟩

/-- C3 witness: a well-formed aggregate (1 death, 2 cases, 10
susceptible) together with an unmatched woreda. -/
theorem C3_rate_bounds_amended_witness :
    (∀ row ∈ get_dashboard_data [⟨"W1"⟩, ⟨"W2"⟩] [⟨"W1", "D", 2, 1, 10⟩],
      0 ≤ row.attack_rate_percent ∧ row.attack_rate_percent ≤ 100 ∧
      0 ≤ row.cfr_percent ∧ row.cfr_percent ≤ 100) ∧
    (∀ (w : Woreda) (c : CaseAgg),
      (rateRow w (some c)).attack_rate_percent =
        (if 0 < c.total_susceptible then c.total_cases / c.total_susceptible * 100 else 0) ∧
      (rateRow w (some c)).cfr_percent =
        (if 0 < c.total_cases then c.total_deaths / c.total_cases * 100 else 0)) :=
  C3_rate_bounds_amended [⟨"W1"⟩, ⟨"W2"⟩] [⟨"W1", "D", 2, 1, 10⟩]
    (by norm_num)

/-- C7: rate calculator coverage.  Every woreda of the input region set
appears in the dashboard output (the merge is a left join), and a woreda
matching no case aggregate gets numeric 0 for all four derived fields
(cases, deaths, attack rate, CFR) instead of missing markers. -/
theorem C7_dashboard_coverage (woredas : List Woreda) (cases_df : List CaseAgg)
    (w : Woreda) (hw : w ∈ woredas) :
    ∃ row ∈ get_dashboard_data woredas cases_df,
      row.woreda_code = w.woreda_code ∧
      (cases_df.filter (fun c => c.woreda_code = w.woreda_code) = [] →
        row.total_cases = 0 ∧ row.total_deaths = 0 ∧
        row.attack_rate_percent = 0 ∧ row.cfr_percent = 0) := by
  rcases hf : cases_df.filter (fun c => c.woreda_code = w.woreda_code) with _ | ⟨c, ms⟩
  · refine ⟨rateRow w none, ?_, rfl, fun _ => ⟨rfl, rfl, rfl, rfl⟩⟩
    simp only [get_dashboard_data, List.mem_map]
    refine ⟨(w, none), ?_, rfl⟩
    simp only [leftMerge, List.mem_flatMap]
    exact ⟨w, hw, by rw [hf]; simp⟩
  · refine ⟨rateRow w (some c), ?_, rfl, fun hemp => by rw [hemp] at hf; cases hf⟩
    simp only [get_dashboard_data, List.mem_map]
    refine ⟨(w, some c), ?_, rfl⟩
    simp only [leftMerge, List.mem_flatMap]
    refine ⟨w, hw, ?_⟩
    rw [hf]
    simp

/-- C7 witness: a two-woreda set in which only one woreda has case data;
the other still appears, with zeros. -/
theorem C7_dashboard_coverage_witness :
    ∃ row ∈ get_dashboard_data [⟨"W1"⟩, ⟨"W2"⟩] [⟨"W1", "D", 2, 1, 10⟩],
      row.woreda_code = (⟨"W2"⟩ : Woreda).woreda_code ∧
      (([⟨"W1", "D", 2, 1, 10⟩] : List CaseAgg).filter
          (fun c => c.woreda_code = (⟨"W2"⟩ : Woreda).woreda_code) = [] →
        row.total_cases = 0 ∧ row.total_deaths = 0 ∧
        row.attack_rate_percent = 0 ∧ row.cfr_percent = 0) :=
  C7_dashboard_coverage [⟨"W1"⟩, ⟨"W2"⟩] [⟨"W1", "D", 2, 1, 10⟩] ⟨"W2"⟩
    (by simp)

/-! ## Theorems: weighted risk scorer -/

theorem setCol_append_of_not_mem (df : DFrame) (name : String) (v : List ℚ)
    (h : name ∉ df.colNames) : df.setCol name v = ⟨df.cols ++ [(name, v)]⟩ := by
  unfold DFrame.setCol
  rw [if_neg h]

/-- `setCol "final_risk_score"` on a frame whose last column is the score
column replaces exactly that column. -/
theorem shaped_setCol (base : List (String × List ℚ)) (s v : List ℚ)
    (hb : "final_risk_score" ∉ base.map Prod.fst) :
    (DFrame.mk (base ++ [("final_risk_score", s)])).setCol "final_risk_score" v =
      ⟨base ++ [("final_risk_score", v)]⟩ := by
  unfold DFrame.setCol
  have hmem : "final_risk_score" ∈ (DFrame.mk (base ++ [("final_risk_score", s)])).colNames := by
    simp [DFrame.colNames]
  rw [if_pos hmem]
  congr 1
  show List.map _ (base ++ [("final_risk_score", s)]) = _
  rw [List.map_append]
  have hid : ∀ c ∈ base,
      (if c.1 = "final_risk_score" then (("final_risk_score" : String), v) else c) = c :=
    fun c hc => if_neg fun h => hb (by rw [← h]; exact List.mem_map_of_mem _ hc)
  have h1 : base.map (fun c => if c.1 = "final_risk_score" then ("final_risk_score", v) else c)
      = base := (List.map_congr_left hid).trans (List.map_id base)
  rw [h1]
  simp

theorem shaped_getColD_frs (base : List (String × List ℚ)) (s : List ℚ)
    (hb : "final_risk_score" ∉ base.map Prod.fst) :
    (DFrame.mk (base ++ [("final_risk_score", s)])).getColD "final_risk_score" = s := by
  unfold DFrame.getColD
  rw [lookupKey_append, lookupKey_eq_none_of_not_mem hb]
  simp

theorem shaped_getColD_other (base : List (String × List ℚ)) (s : List ℚ) (f : String)
    (hf : f ≠ "final_risk_score") :
    (DFrame.mk (base ++ [("final_risk_score", s)])).getColD f = (lookupKey f base).getD [] := by
  unfold DFrame.getColD
  rw [lookupKey_append]
  cases hl : lookupKey f base
  · simp [hl, Ne.symm hf]
  · simp [hl]

theorem shaped_colNames (base : List (String × List ℚ)) (s : List ℚ) :
    (DFrame.mk (base ++ [("final_risk_score", s)])).colNames =
      base.map Prod.fst ++ ["final_risk_score"] := by
  simp [DFrame.colNames]

/-- One loop iteration on a frame of shape `layers ++ score column`:
the shape is preserved and the score column is updated as the source
loop body does (including the pathological case of a weight keyed by the
score column's own name, which reads the score column itself). -/
theorem wlcStep_shaped (base : List (String × List ℚ)) (s : List ℚ) (fw : String × ℚ)
    (hb : "final_risk_score" ∉ base.map Prod.fst) :
    wlcStep ⟨base ++ [("final_risk_score", s)]⟩ fw =
      ⟨base ++ [("final_risk_score",
        if fw.1 = "final_risk_score" then
          List.zipWith (fun a x => a + x * fw.2) s s
        else if fw.1 ∈ base.map Prod.fst then
          List.zipWith (fun a x => a + x * fw.2) s ((lookupKey fw.1 base).getD [])
        else s)]⟩ := by
  unfold wlcStep
  by_cases h1 : fw.1 = "final_risk_score"
  · have hmem : fw.1 ∈ (DFrame.mk (base ++ [("final_risk_score", s)])).colNames := by
      rw [shaped_colNames, h1]
      simp
    rw [if_pos hmem, h1, shaped_getColD_frs base s hb, shaped_setCol base s _ hb]
    simp
  · by_cases h2 : fw.1 ∈ base.map Prod.fst
    · have hmem : fw.1 ∈ (DFrame.mk (base ++ [("final_risk_score", s)])).colNames := by
        rw [shaped_colNames]
        exact List.mem_append_left _ h2
      rw [if_pos hmem, shaped_getColD_frs base s hb, shaped_getColD_other base s fw.1 h1,
        shaped_setCol base s _ hb, if_neg h1, if_pos h2]
    · have hmem : fw.1 ∉ (DFrame.mk (base ++ [("final_risk_score", s)])).colNames := by
        rw [shaped_colNames]
        intro hin
        rcases List.mem_append.mp hin with h | h
        · exact h2 h
        · exact h1 (List.mem_singleton.mp h)
      rw [if_neg hmem, if_neg h1, if_neg h2]

/-- The weight-application loop preserves the `layers ++ score column`
shape (no hypothesis on the weight keys). -/
theorem foldl_wlcStep_shape (ws : List (String × ℚ)) :
    ∀ (base : List (String × List ℚ)) (s : List ℚ),
      "final_risk_score" ∉ base.map Prod.fst →
      ∃ s₁, List.foldl wlcStep ⟨base ++ [("final_risk_score", s)]⟩ ws =
        ⟨base ++ [("final_risk_score", s₁)]⟩ := by
  induction ws with
  | nil => exact fun base s _ => ⟨s, rfl⟩
  | cons fw t ih =>
    intro base s hb
    rw [List.foldl_cons, wlcStep_shaped base s fw hb]
    exact ih base _ hb

/-- When no weight is keyed by the score column's name, the
weight-application loop computes exactly `scoreFold`. -/
theorem foldl_wlcStep_eq_scoreFold (ws : List (String × ℚ)) :
    ∀ (base : List (String × List ℚ)) (s : List ℚ),
      "final_risk_score" ∉ base.map Prod.fst →
      (∀ fw ∈ ws, fw.1 ≠ "final_risk_score") →
      List.foldl wlcStep ⟨base ++ [("final_risk_score", s)]⟩ ws =
        ⟨base ++ [("final_risk_score", scoreFold base s ws)]⟩ := by
  induction ws with
  | nil => exact fun base s _ _ => rfl
  | cons fw t ih =>
    intro base s hb hks
    rw [List.foldl_cons, wlcStep_shaped base s fw hb,
      if_neg (hks fw (List.mem_cons_self fw t)), scoreFold]
    exact ih base _ hb fun g hg => hks g (List.mem_cons_of_mem fw hg)

theorem getD_zipWith (f : ℚ → ℚ → ℚ) :
    ∀ (a b : List ℚ) (i : ℕ), i < a.length → a.length = b.length →
      (List.zipWith f a b).getD i 0 = f (a.getD i 0) (b.getD i 0) := by
  intro a
  induction a with
  | nil => intro b i hi _; cases hi
  | cons x xs ih =>
    intro b i hi hlen
    cases b with
    | nil => cases hlen
    | cons y ys =>
      cases i with
      | zero => simp
      | succ n =>
        simp only [List.zipWith_cons_cons, List.getD_cons_succ]
        exact ih ys n (Nat.lt_of_succ_lt_succ hi) (Nat.succ_injective hlen)

theorem getD_map (f : ℚ → ℚ) :
    ∀ (l : List ℚ) (i : ℕ), i < l.length →
      (l.map f).getD i 0 = f (l.getD i 0) := by
  intro l
  induction l with
  | nil => intro i hi; cases hi
  | cons x xs ih =>
    intro i hi
    cases i with
    | zero => simp
    | succ n =>
      simp only [List.map_cons, List.getD_cons_succ]
      exact ih n (Nat.lt_of_succ_lt_succ hi)

theorem getD_replicate : ∀ (n i : ℕ), (List.replicate n (0 : ℚ)).getD i 0 = 0 := by
  intro n
  induction n with
  | zero => intro i; simp
  | succ m ih =>
    intro i
    cases i with
    | zero => simp
    | succ k => simp [ih k]

theorem scoreFold_length (base : List (String × List ℚ)) :
    ∀ (ws : List (String × ℚ)) (s : List ℚ),
      (∀ c ∈ base, c.2.length = s.length) →
      (scoreFold base s ws).length = s.length := by
  intro ws
  induction ws with
  | nil => intro s _; rfl
  | cons fw t ih =>
    intro s hwf
    rw [scoreFold]
    by_cases hm : fw.1 ∈ base.map Prod.fst
    · obtain ⟨v, hv⟩ := lookupKey_exists_of_mem hm
      have hvlen : v.length = s.length := hwf (fw.1, v) (lookupKey_mem hv)
      have hzlen : (List.zipWith (fun a x => a + x * fw.2) s ((lookupKey fw.1 base).getD [])).length
          = s.length := by
        rw [hv]
        simp [hvlen]
      rw [if_pos hm, ih _ fun c hc => (hwf c hc).trans hzlen.symm, hzlen]
    · rw [if_neg hm]
      exact ih s hwf

/-- Pointwise value of the loop's score column: the initial value plus
the running total of `column[i] * weight` over the factors found in the
data. -/
theorem scoreFold_getD (base : List (String × List ℚ)) :
    ∀ (ws : List (String × ℚ)) (s : List ℚ) (i : ℕ), i < s.length →
      (∀ c ∈ base, c.2.length = s.length) →
      (scoreFold base s ws).getD i 0 =
        s.getD i 0 + (ws.map fun fw =>
          if fw.1 ∈ base.map Prod.fst then
            ((lookupKey fw.1 base).getD []).getD i 0 * fw.2
          else 0).sum := by
  intro ws
  induction ws with
  | nil => intro s i _ _; simp [scoreFold]
  | cons fw t ih =>
    intro s i hi hwf
    rw [scoreFold]
    by_cases hm : fw.1 ∈ base.map Prod.fst
    · obtain ⟨v, hv⟩ := lookupKey_exists_of_mem hm
      have hvlen : v.length = s.length := hwf (fw.1, v) (lookupKey_mem hv)
      have hzlen : (List.zipWith (fun a x => a + x * fw.2) s ((lookupKey fw.1 base).getD [])).length
          = s.length := by
        rw [hv]
        simp [hvlen]
      rw [if_pos hm,
        ih _ i (hzlen ▸ hi) fun c hc => (hwf c hc).trans hzlen.symm,
        getD_zipWith _ s _ i hi (by rw [hv]; exact (by simpa using hvlen.symm)),
        List.map_cons, List.sum_cons, if_pos hm]
      ring
    · rw [if_neg hm, ih s i hi hwf, List.map_cons, List.sum_cons, if_neg hm]
      ring

theorem list_sum_eq_zero_of_nonneg :
    ∀ (l : List ℚ), (∀ x ∈ l, 0 ≤ x) → l.sum = 0 → ∀ x ∈ l, x = 0 := by
  intro l
  induction l with
  | nil => intro _ _ x hx; cases hx
  | cons y t ih =>
    intro hnn hsum x hx
    have hts : 0 ≤ t.sum := List.sum_nonneg fun z hz => hnn z (List.mem_cons_of_mem _ hz)
    have hy : 0 ≤ y := hnn y (List.mem_cons_self _ _)
    rw [List.sum_cons] at hsum
    rcases List.mem_cons.mp hx with h | h
    · subst h; linarith
    · exact ih (fun z hz => hnn z (List.mem_cons_of_mem _ hz)) (by linarith) x h

/-- Output shape of the scorer on a non-empty frame without a
pre-existing score column: the layer columns, in order, plus the new
score column at the end. -/
theorem calculate_weighted_risk_shape (df : DFrame) (ws : List (String × ℚ))
    (hne : ¬ df.isEmpty) (hb : "final_risk_score" ∉ df.colNames) :
    ∃ v, (calculate_weighted_risk df ws).1.cols = df.cols ++ [("final_risk_score", v)] := by
  have hb' : "final_risk_score" ∉ df.cols.map Prod.fst := hb
  have h0 : df.setCol "final_risk_score" (List.replicate df.nrows 0) =
      ⟨df.cols ++ [("final_risk_score", List.replicate df.nrows 0)]⟩ :=
    setCol_append_of_not_mem df _ _ hb
  obtain ⟨s₁, hs₁⟩ := foldl_wlcStep_shape ws df.cols (List.replicate df.nrows 0) hb'
  simp only [calculate_weighted_risk]
  rw [if_neg hne]
  rw [h0, hs₁]
  by_cases ht : 0 < (ws.map Prod.snd).sum
  · rw [if_pos ht, shaped_getColD_frs df.cols s₁ hb', shaped_setCol df.cols s₁ _ hb']
    exact ⟨_, rfl⟩
  · rw [if_neg ht]
    exact ⟨s₁, rfl⟩

/-- C1 counterexample: the code normalizes by the sum of all weights in
the mapping, not by the sum of the weights actually applied.  With a
single layer `liv = 1` and weights `liv ↦ 1, road ↦ 1` (factor `road`
absent from the data), the code computes 1/2 while the claim's formula
gives 1/1 = 1. -/
theorem C1_counterexample_normalization :
    scoreAt (calculate_weighted_risk ⟨[("liv", [1])]⟩ [("liv", 1), ("road", 1)]).1 0 = 1 / 2 ∧
    specCompositeScore ⟨[("liv", [1])]⟩ [("liv", 1), ("road", 1)] 0 = 1 ∧
    (1 / 2 : ℚ) ≠ 1 := by
  refine ⟨?_, ?_, by norm_num⟩
  · simp +decide [scoreAt, calculate_weighted_risk, DFrame.isEmpty, DFrame.nrows,
      DFrame.setCol, DFrame.colNames, DFrame.getColD, wlcStep]
    norm_num
  · simp +decide [specCompositeScore, appliedWeightSum, appliedRowTotal, DFrame.colNames,
      DFrame.getColD, List.filter]

/-- C1 amended: for every well-formed non-empty layer table (columns of
equal length, no pre-existing score column) and every weight mapping
with non-negative weights not keyed by the score column's name, the
composite score of each region is the running total (over factors
present in both the mapping and the data) divided by the sum of ALL
weights in the mapping when that sum is positive, and 0 otherwise. -/
theorem C1_weighted_risk_amended (df : DFrame) (ws : List (String × ℚ))
    (hne : ¬ df.isEmpty) (hwf : ∀ c ∈ df.cols, c.2.length = df.nrows)
    (hb : "final_risk_score" ∉ df.colNames)
    (hkeys : ∀ fw ∈ ws, fw.1 ≠ "final_risk_score")
    (hnn : ∀ fw ∈ ws, 0 ≤ fw.2)
    (i : ℕ) (hi : i < df.nrows) :
    scoreAt (calculate_weighted_risk df ws).1 i =
      if 0 < (ws.map Prod.snd).sum then
        appliedRowTotal df ws i / (ws.map Prod.snd).sum
      else 0 := by
  have hb' : "final_risk_score" ∉ df.cols.map Prod.fst := hb
  have h0 : df.setCol "final_risk_score" (List.replicate df.nrows 0) =
      ⟨df.cols ++ [("final_risk_score", List.replicate df.nrows 0)]⟩ :=
    setCol_append_of_not_mem df _ _ hb
  have hwf0 : ∀ c ∈ df.cols, c.2.length = (List.replicate df.nrows (0 : ℚ)).length := by
    intro c hc
    rw [List.length_replicate]
    exact hwf c hc
  have hlen : (scoreFold df.cols (List.replicate df.nrows 0) ws).length = df.nrows := by
    rw [scoreFold_length df.cols ws _ hwf0, List.length_replicate]
  have hval : (scoreFold df.cols (List.replicate df.nrows 0) ws).getD i 0 =
      appliedRowTotal df ws i := by
    rw [scoreFold_getD df.cols ws _ i (by rw [List.length_replicate]; exact hi) hwf0,
      getD_replicate, zero_add]
    rfl
  simp only [calculate_weighted_risk]
  rw [if_neg hne]
  rw [h0, foldl_wlcStep_eq_scoreFold ws df.cols _ hb' hkeys]
  by_cases ht : 0 < (ws.map Prod.snd).sum
  · rw [if_pos ht, shaped_getColD_frs df.cols _ hb', shaped_setCol df.cols _ _ hb', if_pos ht]
    unfold scoreAt
    rw [shaped_getColD_frs df.cols _ hb', getD_map _ _ i (by rw [hlen]; exact hi)]
    rw [hval]
  · rw [if_neg ht, if_neg ht]
    unfold scoreAt
    rw [shaped_getColD_frs df.cols _ hb', hval]
    have hnnm : ∀ x ∈ ws.map Prod.snd, (0 : ℚ) ≤ x := by
      intro x hx
      rw [List.mem_map] at hx
      obtain ⟨fw, hfw, hfx⟩ := hx
      rw [← hfx]
      exact hnn fw hfw
    have htot0 : (ws.map Prod.snd).sum = 0 :=
      le_antisymm (not_lt.mp ht) (List.sum_nonneg hnnm)
    have hall0 := list_sum_eq_zero_of_nonneg _ hnnm htot0
    apply List.sum_eq_zero
    intro x hx
    rw [List.mem_map] at hx
    obtain ⟨fw, hfw, hfx⟩ := hx
    have hw0 : fw.2 = 0 := hall0 fw.2 (List.mem_map_of_mem _ hfw)
    rw [← hfx]
    by_cases hm : fw.1 ∈ df.colNames <;> simp [hm, hw0]

/-- C1 witness: two layers, both weighted, one region. -/
theorem C1_weighted_risk_amended_witness :
    scoreAt (calculate_weighted_risk ⟨[("liv", [1]), ("road", [0])]⟩
        [("liv", 1), ("road", 1)]).1 0 =
      if 0 < (([("liv", (1 : ℚ)), ("road", 1)]).map Prod.snd).sum then
        appliedRowTotal ⟨[("liv", [1]), ("road", [0])]⟩ [("liv", 1), ("road", 1)] 0 /
          (([("liv", (1 : ℚ)), ("road", 1)]).map Prod.snd).sum
      else 0 :=
  C1_weighted_risk_amended ⟨[("liv", [1]), ("road", [0])]⟩ [("liv", 1), ("road", 1)]
    (by decide) (by decide) (by decide) (by decide) (by decide) 0 (by decide)

/-- C9 counterexample: on an empty layer table the risk scorer returns
its input unchanged, so the mandatory derived column
`final_risk_score` is absent from the output. -/
theorem C9_counterexample_missing_column :
    (calculate_weighted_risk ⟨[]⟩ [("liv", 1)]).1 = ⟨[]⟩ ∧
    "final_risk_score" ∉ (calculate_weighted_risk ⟨[]⟩ [("liv", 1)]).1.colNames := by
  decide

/-- C9 amended: the LISA degenerate branch always populates all three
derived columns with their sentinel defaults; the LISA error branch
populates `cluster_type` (but only that column) with the "Analysis
Error" sentinel; and the risk scorer adds `final_risk_score` for every
non-empty input without a pre-existing score column — but on an empty
input the scorer returns the input unchanged, without the column. -/
theorem C9_derived_columns_amended :
    (∀ (gdf : GeoFrame) (attr : String) (moran : Except String (List ℕ × List ℚ)),
      lisaDegenerate gdf attr →
        (calculate_lisa gdf attr moran).1.lisa_q = some (List.replicate gdf.nrows 0) ∧
        (calculate_lisa gdf attr moran).1.lisa_p = some (List.replicate gdf.nrows 1) ∧
        (calculate_lisa gdf attr moran).1.cluster_type =
          some (List.replicate gdf.nrows (some "Not Significant"))) ∧
    (∀ (gdf : GeoFrame) (attr e : String),
      ¬ lisaDegenerate gdf attr →
        (calculate_lisa gdf attr (Except.error e)).1.cluster_type =
          some (List.replicate gdf.nrows (some "Analysis Error"))) ∧
    (∀ (df : DFrame) (ws : List (String × ℚ)),
      ¬ df.isEmpty → "final_risk_score" ∉ df.colNames →
        "final_risk_score" ∈ (calculate_weighted_risk df ws).1.colNames) := by
  refine ⟨fun gdf attr moran h => ?_, fun gdf attr e h => ?_, fun df ws hne hb => ?_⟩
  · rw [calculate_lisa_of_degenerate gdf attr h moran]
    exact ⟨rfl, rfl, rfl⟩
  · rw [calculate_lisa_of_error gdf attr h e]
  · obtain ⟨v, hv⟩ := calculate_weighted_risk_shape df ws hne hb
    unfold DFrame.colNames
    rw [hv]
    simp

/-- C9 witness: the three conjuncts at a degenerate LISA frame, a
non-degenerate LISA frame with a failing oracle, and a one-layer risk
frame. -/
theorem C9_derived_columns_amended_witness :
    ((calculate_lisa ⟨1, [("y", [3])], none, none, none⟩ "y" (Except.ok ([], []))).1.lisa_q =
        some (List.replicate 1 0) ∧
      (calculate_lisa ⟨1, [("y", [3])], none, none, none⟩ "y" (Except.ok ([], []))).1.lisa_p =
        some (List.replicate 1 1) ∧
      (calculate_lisa ⟨1, [("y", [3])], none, none, none⟩ "y"
          (Except.ok ([], []))).1.cluster_type =
        some (List.replicate 1 (some "Not Significant"))) ∧
    (calculate_lisa ⟨2, [("y", [1, 2])], none, none, none⟩ "y"
        (Except.error "x")).1.cluster_type =
      some (List.replicate 2 (some "Analysis Error")) ∧
    "final_risk_score" ∈ (calculate_weighted_risk ⟨[("liv", [1])]⟩ [("liv", 1)]).1.colNames :=
  ⟨C9_derived_columns_amended.1 ⟨1, [("y", [3])], none, none, none⟩ "y"
      (Except.ok ([], [])) (by decide),
   C9_derived_columns_amended.2.1 ⟨2, [("y", [1, 2])], none, none, none⟩ "y" "x" (by decide),
   C9_derived_columns_amended.2.2 ⟨[("liv", [1])]⟩ [("liv", 1)] (by decide) (by decide)⟩

/-- C10: risk scorer non-mutation.  For every non-empty layer table
(without a pre-existing score column) and every weight mapping, the
caller's table is returned unchanged and the function's return value is
the input's columns with exactly one new column, `final_risk_score`,
appended. -/
theorem C10_risk_scorer_non_mutation (df : DFrame) (ws : List (String × ℚ))
    (hne : ¬ df.isEmpty) (hb : "final_risk_score" ∉ df.colNames) :
    (calculate_weighted_risk df ws).2 = df ∧
    ∃ v, (calculate_weighted_risk df ws).1.cols = df.cols ++ [("final_risk_score", v)] := by
  refine ⟨?_, calculate_weighted_risk_shape df ws hne hb⟩
  unfold calculate_weighted_risk
  rw [if_neg hne]

/-- C10 witness: a one-layer, one-region table. -/
theorem C10_risk_scorer_non_mutation_witness :
    (calculate_weighted_risk ⟨[("liv", [1])]⟩ [("liv", 1)]).2 = ⟨[("liv", [1])]⟩ ∧
    ∃ v, (calculate_weighted_risk ⟨[("liv", [1])]⟩ [("liv", 1)]).1.cols =
      [("liv", [(1 : ℚ)])] ++ [("final_risk_score", v)] :=
  C10_risk_scorer_non_mutation ⟨[("liv", [1])]⟩ [("liv", 1)] (by decide) (by decide)

end MirshaVet
